import Mathlib

/-!
Verification development for the offline-cache service worker in `src/sw.js`.

The script consists of two constants (`CACHE_NAME`, `CORE_ASSETS`) and three
event handlers (install, activate, fetch).  We give a shallow embedding:

* a `Response` is the data an HTTP response carries (status code and body);
  `res.clone()` produces a duplicate carrying the same data;
* a `Request` is a method together with a URL;
* a `Cache` bucket is an association list from URL keys to responses
  (the script only ever stores GET requests, so the URL is the key);
* the `CacheStorage` (`caches`) is an association list from bucket names to
  buckets, in creation order;
* the network is a function `String → Option Response`; `none` models a
  rejected fetch promise, `some res` a fulfilled one (any status);
* each handler becomes a state-passing function on `CacheStorage`.

`caches.delete` may in principle fail per bucket, so the activate handler is
parametrised by a predicate `deleteOk` telling which individual deletions
succeed; the host runtime completes activation regardless, which the model
reflects by `activateHandler` being a total function.
-/

/-- The data carried by an HTTP response: status code and body. -/
structure Response where
  status : Nat
  body : String
deriving DecidableEq, Repr

/-- An intercepted request: HTTP method and URL. -/
structure Request where
  method : String
  url : String
deriving DecidableEq, Repr

/-- `res.clone()`: a duplicate response carrying the same data, so that one
copy can be stored while the other is returned to the caller. -/
def cloneResponse (r : Response) : Response :=
  ⟨r.status, r.body⟩

/-- One cache bucket: entries keyed by URL. -/
abbrev Cache := List (String × Response)

/-- The cache storage `caches`: named buckets in creation order. -/
abbrev CacheStorage := List (String × Cache)

/-- `const CACHE_NAME = "kr-close-report-v1";` (src/sw.js line 1). -/
def CACHE_NAME : String := "kr-close-report-v1"

/-- `const CORE_ASSETS = [...]` (src/sw.js line 2). -/
def CORE_ASSETS : List String :=
  ["/", "/index.html", "/manifest.webmanifest", "/icon-192.png", "/icon-512.png"]

/-- `cache.match(url)`: the stored response for the URL, if any. -/
def cacheMatch : Cache → String → Option Response
  | [], _ => none
  | (k, r) :: rest, url => if k = url then some r else cacheMatch rest url

/-- Remove every entry stored under the given URL (the deletion step of
`cache.put`, which replaces any matching entry). -/
def cacheDeleteKey : Cache → String → Cache
  | [], _ => []
  | (k, r) :: rest, url =>
      if k = url then cacheDeleteKey rest url else (k, r) :: cacheDeleteKey rest url

/-- `cache.put(url, r)`: replace any entry for the URL with the new response.
The entry order inside a bucket is unobservable through `cacheMatch`. -/
def cachePut (c : Cache) (url : String) (r : Response) : Cache :=
  (url, r) :: cacheDeleteKey c url

/-- `cache.addAll(urls)`: fetch every URL over the network and store each
response; the whole operation fails (`none`) if any single fetch fails. -/
def cacheAddAll (network : String → Option Response) : Cache → List String → Option Cache
  | c, [] => some c
  | c, url :: rest =>
      match network url with
      | none => none
      | some r => cacheAddAll network (cachePut c url r) rest

/-- The bucket registered under a name, if any (`caches` lookup). -/
def storageGet : CacheStorage → String → Option Cache
  | [], _ => none
  | (n, c) :: rest, name => if n = name then some c else storageGet rest name

/-- `caches.open(name)`: the named bucket, an empty one if absent. -/
def cachesOpen (cs : CacheStorage) (name : String) : Cache :=
  (storageGet cs name).getD []

/-- Write a bucket back under a name: replace the registered bucket in place,
or append a freshly created one (the write-back step of `caches.open` followed
by mutation of the opened bucket). -/
def storageSet : CacheStorage → String → Cache → CacheStorage
  | [], name, c => [(name, c)]
  | (n, c0) :: rest, name, c =>
      if n = name then (name, c) :: rest else (n, c0) :: storageSet rest name c

/-- `caches.match(url)`: look the URL up in every bucket, in storage order. -/
def cachesMatch : CacheStorage → String → Option Response
  | [], _ => none
  | (_, c) :: rest, url =>
      match cacheMatch c url with
      | some r => some r
      | none => cachesMatch rest url

/-- The entry stored under `url` in the bucket named `name`, if any. -/
def bucketMatch (cs : CacheStorage) (name url : String) : Option Response :=
  match storageGet cs name with
  | none => none
  | some c => cacheMatch c url

/-- The install handler (src/sw.js lines 4-7):
`caches.open(CACHE_NAME).then((cache) => cache.addAll(CORE_ASSETS))`.
Returns `none` when the population step fails, which fails the install. -/
def installHandler (network : String → Option Response) (cs : CacheStorage) :
    Option CacheStorage :=
  match cacheAddAll network (cachesOpen cs CACHE_NAME) CORE_ASSETS with
  | none => none
  | some c => some (storageSet cs CACHE_NAME c)

/-- The activate handler (src/sw.js lines 9-14):
`caches.keys().then((keys) => Promise.all(keys.map((k) => (k !== CACHE_NAME ? caches.delete(k) : null))))`.
Each bucket not named `CACHE_NAME` gets its own independent `caches.delete`
call; `deleteOk` tells which of those individual deletions succeed.  The
handler always yields a final storage: activation completes either way. -/
def activateHandler (deleteOk : String → Bool) (cs : CacheStorage) : CacheStorage :=
  cs.filter (fun p => p.1 == CACHE_NAME || !(deleteOk p.1))

/-- Outcome of the fetch event listener for one request. -/
inductive FetchResult where
  /-- The listener returned without calling `respondWith`: the request goes
  to the network untouched, as if no service worker were present. -/
  | passthrough : FetchResult
  /-- `event.respondWith` was called and its promise resolved with the given
  value; `none` models resolving with `undefined` (no response). -/
  | responded : Option Response → FetchResult
deriving DecidableEq, Repr

/-- The fetch handler (src/sw.js lines 16-27).  Non-GET requests return
early (no interception).  For GET requests the network is tried first: on a
fulfilled fetch the response is cloned, the clone stored into the
`CACHE_NAME` bucket under the request URL, and the original returned; on a
rejected fetch the result is `caches.match(request) || caches.match("/")`
and the storage is left untouched. -/
def fetchHandler (network : String → Option Response) (cs : CacheStorage)
    (req : Request) : FetchResult × CacheStorage :=
  if req.method ≠ "GET" then (FetchResult.passthrough, cs)
  else
    match network req.url with
    | some res =>
        (FetchResult.responded (some res),
         storageSet cs CACHE_NAME
           (cachePut (cachesOpen cs CACHE_NAME) req.url (cloneResponse res)))
    | none =>
        (FetchResult.responded
          (match cachesMatch cs req.url with
           | some cached => some cached
           | none => cachesMatch cs "/"), cs)

/-- Cloning is a faithful copy: in the value model the clone carries exactly
the data of the original. -/
theorem cloneResponse_eq (r : Response) : cloneResponse r = r := rfl

theorem cacheMatch_cachePut_self (c : Cache) (url : String) (r : Response) :
    cacheMatch (cachePut c url r) url = some r := by
  simp [cachePut, cacheMatch]

theorem cacheMatch_cacheDeleteKey (c : Cache) (url k : String) (h : k ≠ url) :
    cacheMatch (cacheDeleteKey c url) k = cacheMatch c k := by
  induction c with
  | nil => rfl
  | cons p rest ih =>
      obtain ⟨k0, r0⟩ := p
      by_cases h0 : k0 = url
      · have hu : ¬ (url = k) := fun he => h he.symm
        simp [cacheDeleteKey, cacheMatch, h0, hu, ih]
      · simp only [cacheDeleteKey, cacheMatch, if_neg h0]
        by_cases hk : k0 = k
        · simp [hk]
        · simp [hk, ih]

theorem cacheMatch_cachePut_ne (c : Cache) (url k : String) (r : Response) (h : k ≠ url) :
    cacheMatch (cachePut c url r) k = cacheMatch c k := by
  have hu : ¬ (url = k) := fun he => h he.symm
  simp [cachePut, cacheMatch, hu, cacheMatch_cacheDeleteKey c url k h]

theorem cacheAddAll_isSome_mono (net : String → Option Response) :
    ∀ (as : List String) (c c' : Cache), cacheAddAll net c as = some c' →
    ∀ k, (cacheMatch c k).isSome = true → (cacheMatch c' k).isSome = true := by
  intro as
  induction as with
  | nil =>
      intro c c' h k hk
      simp only [cacheAddAll, Option.some.injEq] at h
      rw [← h]
      exact hk
  | cons url rest ih =>
      intro c c' h k hk
      unfold cacheAddAll at h
      cases hn : net url with
      | none => rw [hn] at h; exact absurd h (by simp)
      | some r =>
          rw [hn] at h
          refine ih _ _ h k ?_
          by_cases hku : k = url
          · subst hku
            simp [cacheMatch_cachePut_self]
          · rw [cacheMatch_cachePut_ne _ _ _ _ hku]
            exact hk

theorem cacheAddAll_isSome_of_mem (net : String → Option Response) :
    ∀ (as : List String) (c c' : Cache), cacheAddAll net c as = some c' →
    ∀ a ∈ as, (cacheMatch c' a).isSome = true := by
  intro as
  induction as with
  | nil => intro c c' h a ha; exact absurd ha (by simp)
  | cons url rest ih =>
      intro c c' h a ha
      unfold cacheAddAll at h
      cases hn : net url with
      | none => rw [hn] at h; exact absurd h (by simp)
      | some r =>
          rw [hn] at h
          rcases List.mem_cons.mp ha with rfl | hmem
          · exact cacheAddAll_isSome_mono net rest _ _ h a (by simp [cacheMatch_cachePut_self])
          · exact ih _ _ h a hmem

theorem cacheAddAll_eq_none (net : String → Option Response) :
    ∀ (as : List String) (c : Cache) (a : String), a ∈ as → net a = none →
    cacheAddAll net c as = none := by
  intro as
  induction as with
  | nil => intro c a ha _; exact absurd ha (by simp)
  | cons url rest ih =>
      intro c a ha hn
      rcases List.mem_cons.mp ha with rfl | hmem
      · simp [cacheAddAll, hn]
      · unfold cacheAddAll
        cases hnu : net url with
        | none => rfl
        | some r => exact ih _ a hmem hn

theorem storageGet_storageSet_self (cs : CacheStorage) (name : String) (c : Cache) :
    storageGet (storageSet cs name c) name = some c := by
  induction cs with
  | nil => simp [storageSet, storageGet]
  | cons p rest ih =>
      obtain ⟨n, c0⟩ := p
      by_cases h : n = name
      · subst h
        simp [storageSet, storageGet]
      · simp [storageSet, storageGet, h, ih]

theorem cachesMatch_storageSet_of_some (cs : CacheStorage) (name : String) (c : Cache)
    (url : String) (r : Response) (hall : ∀ p ∈ cs, p.1 = name)
    (hc : cacheMatch c url = some r) :
    cachesMatch (storageSet cs name c) url = some r := by
  cases cs with
  | nil => simp [storageSet, cachesMatch, hc]
  | cons p rest =>
      obtain ⟨n, c0⟩ := p
      have hn : n = name := hall (n, c0) (by simp)
      subst hn
      simp [storageSet, cachesMatch, hc]

theorem length_le_one_of_keys (l : List (String × Cache))
    (h : ∀ p ∈ l, p.1 = CACHE_NAME) (hnd : (l.map Prod.fst).Nodup) :
    l.length ≤ 1 := by
  cases l with
  | nil => simp
  | cons a t =>
      cases t with
      | nil => simp
      | cons b t' =>
          exfalso
          have ha : a.1 = CACHE_NAME := h a (by simp)
          have hb : b.1 = CACHE_NAME := h b (by simp)
          simp only [List.map_cons, List.nodup_cons, List.mem_cons] at hnd
          exact hnd.1 (Or.inl (ha.trans hb.symm))

/-- Claim C1: for every GET request whose network fetch fails, the fetch
interceptor resolves with the first defined value of the fallback chain: the
cached entry for that exact request if present, otherwise the cached entry
for the root document path "/" (which is `none` when that too is absent). -/
theorem fetch_failure_fallback_chain (net : String → Option Response)
    (cs : CacheStorage) (req : Request)
    (hm : req.method = "GET") (hn : net req.url = none) :
    (∀ r, cachesMatch cs req.url = some r →
        (fetchHandler net cs req).1 = FetchResult.responded (some r)) ∧
    (cachesMatch cs req.url = none →
        (fetchHandler net cs req).1 = FetchResult.responded (cachesMatch cs "/")) := by
  constructor
  · intro r hr
    simp [fetchHandler, hm, hn, hr]
  · intro hnone
    simp [fetchHandler, hm, hn, hnone]

theorem fetch_failure_fallback_chain_witness :
    (fetchHandler (fun _ => none) [(CACHE_NAME, [("/", ⟨200, "home"⟩)])] ⟨"GET", "/x"⟩).1
      = FetchResult.responded (some ⟨200, "home"⟩) := by
  have h := (fetch_failure_fallback_chain (fun _ => none)
      [(CACHE_NAME, [("/", ⟨200, "home"⟩)])] ⟨"GET", "/x"⟩ rfl rfl).2 (by decide)
  rw [h]
  decide

/-- Claim C2: for every GET request whose network fetch succeeds, the
interceptor responds with the original network response, and a clone of it
(carrying the same data) is stored in the `CACHE_NAME` bucket under the
request's URL in the resulting storage. -/
theorem fetch_success_stores_clone (net : String → Option Response)
    (cs : CacheStorage) (req : Request) (res : Response)
    (hm : req.method = "GET") (hn : net req.url = some res) :
    (fetchHandler net cs req).1 = FetchResult.responded (some res) ∧
    bucketMatch (fetchHandler net cs req).2 CACHE_NAME req.url = some (cloneResponse res) ∧
    cloneResponse res = res := by
  refine ⟨?_, ?_, rfl⟩
  · simp [fetchHandler, hm, hn]
  · simp [fetchHandler, hm, hn, bucketMatch, storageGet_storageSet_self,
      cacheMatch_cachePut_self]

theorem fetch_success_stores_clone_witness :
    (fetchHandler (fun u => some ⟨200, u⟩) [] ⟨"GET", "/data"⟩).1
        = FetchResult.responded (some ⟨200, "/data"⟩) ∧
    bucketMatch (fetchHandler (fun u => some ⟨200, u⟩) [] ⟨"GET", "/data"⟩).2
        CACHE_NAME "/data" = some (cloneResponse ⟨200, "/data"⟩) ∧
    cloneResponse (⟨200, "/data"⟩ : Response) = ⟨200, "/data"⟩ :=
  fetch_success_stores_clone (fun u => some ⟨200, u⟩) [] ⟨"GET", "/data"⟩ ⟨200, "/data"⟩ rfl rfl

/-- Claim C3: when every individual deletion succeeds, the storage left by
the activate handler has only buckets named `CACHE_NAME`; if bucket names
were distinct beforehand, at most one bucket remains. -/
theorem activate_removes_all_stale (dok : String → Bool) (cs : CacheStorage)
    (hall : ∀ k, dok k = true) :
    (∀ p ∈ activateHandler dok cs, p.1 = CACHE_NAME) ∧
    ((cs.map Prod.fst).Nodup → (activateHandler dok cs).length ≤ 1) := by
  have h1 : ∀ p ∈ activateHandler dok cs, p.1 = CACHE_NAME := by
    intro p hp
    have hpred := (List.mem_filter.mp hp).2
    simpa [hall] using hpred
  refine ⟨h1, fun hnd => ?_⟩
  have hsub : List.Sublist ((activateHandler dok cs).map Prod.fst) (cs.map Prod.fst) :=
    (List.filter_sublist cs).map Prod.fst
  exact length_le_one_of_keys _ h1 (hnd.sublist hsub)

theorem activate_removes_all_stale_witness :
    (∀ p ∈ activateHandler (fun _ => true) [("old-v0", []), (CACHE_NAME, [])],
        p.1 = CACHE_NAME) ∧
    (activateHandler (fun _ => true) [("old-v0", []), (CACHE_NAME, [])]).length ≤ 1 := by
  have h := activate_removes_all_stale (fun _ => true)
      [("old-v0", []), (CACHE_NAME, [])] (fun _ => rfl)
  exact ⟨h.1, h.2 (by decide)⟩

/-- Claim C4: when the install handler succeeds, every path of the core
asset list has an entry in the `CACHE_NAME` bucket of the resulting
storage. -/
theorem install_populates_core_assets (net : String → Option Response)
    (cs cs' : CacheStorage) (h : installHandler net cs = some cs') :
    ∀ a ∈ CORE_ASSETS, (bucketMatch cs' CACHE_NAME a).isSome = true := by
  unfold installHandler at h
  cases hadd : cacheAddAll net (cachesOpen cs CACHE_NAME) CORE_ASSETS with
  | none => rw [hadd] at h; exact absurd h (by simp)
  | some c =>
      rw [hadd] at h
      simp only [Option.some.injEq] at h
      intro a ha
      rw [← h]
      simp only [bucketMatch, storageGet_storageSet_self]
      exact cacheAddAll_isSome_of_mem net CORE_ASSETS _ c hadd a ha

/-- A network on which every fetch fulfils, echoing the URL in the body. -/
def wNetAll : String → Option Response := fun u => some ⟨200, u⟩

/-- The storage produced by a successful install of `wNetAll` on an empty
storage. -/
def wInstalled : CacheStorage := (installHandler wNetAll []).getD []

theorem install_populates_core_assets_witness :
    installHandler wNetAll [] = some wInstalled ∧
    ∀ a ∈ CORE_ASSETS, (bucketMatch wInstalled CACHE_NAME a).isSome = true :=
  ⟨rfl, install_populates_core_assets wNetAll [] wInstalled rfl⟩

/-- Claim C5: a request whose method is not GET is not intercepted: the
handler returns without responding and the storage is untouched, so the
request reaches the network as if uncontrolled. -/
theorem non_get_passthrough (net : String → Option Response) (cs : CacheStorage)
    (req : Request) (h : req.method ≠ "GET") :
    fetchHandler net cs req = (FetchResult.passthrough, cs) := by
  simp [fetchHandler, h]

theorem non_get_passthrough_witness :
    fetchHandler (fun u => some ⟨200, u⟩) [] ⟨"POST", "/submit"⟩
      = (FetchResult.passthrough, []) :=
  non_get_passthrough (fun u => some ⟨200, u⟩) [] ⟨"POST", "/submit"⟩ (by decide)

/-- Claim C6, counterexample: the core asset list does not have four paths —
it has five, the extra one being the index document "/index.html". -/
theorem core_assets_not_four_paths :
    CORE_ASSETS.length ≠ 4 ∧ "/index.html" ∈ CORE_ASSETS ∧ CORE_ASSETS.length = 5 := by
  decide

/-- Claim C6 (amended): the core asset list is exactly the five absolute
paths root document, index document, web-app manifest, and two icon images;
the bucket name is the string constant "kr-close-report-v1". -/
theorem core_assets_and_cache_name :
    CORE_ASSETS
      = ["/", "/index.html", "/manifest.webmanifest", "/icon-192.png", "/icon-512.png"] ∧
    CACHE_NAME = "kr-close-report-v1" :=
  ⟨rfl, rfl⟩

/-- Claim C7: bucket deletions during activate are independent and
best-effort.  Whatever the other deletions do: the current bucket is kept, a
stale bucket whose own deletion fails stays (no compensating action, and the
handler still yields a final storage), and a stale bucket whose own deletion
succeeds is removed. -/
theorem activate_deletions_independent (dok : String → Bool) (cs : CacheStorage)
    (p : String × Cache) (hp : p ∈ cs) :
    (p.1 = CACHE_NAME → p ∈ activateHandler dok cs) ∧
    (p.1 ≠ CACHE_NAME → dok p.1 = false → p ∈ activateHandler dok cs) ∧
    (p.1 ≠ CACHE_NAME → dok p.1 = true → p ∉ activateHandler dok cs) := by
  refine ⟨fun h1 => ?_, fun h1 h2 => ?_, fun h1 h2 hmem => ?_⟩
  · exact List.mem_filter.mpr ⟨hp, by simp [h1]⟩
  · exact List.mem_filter.mpr ⟨hp, by simp [h2]⟩
  · have hpred := (List.mem_filter.mp hmem).2
    simp [h2] at hpred
    exact h1 hpred

/-- Deletion outcome in which removing the bucket "stuck-v0" fails while
every other deletion succeeds. -/
def wDeleteOk : String → Bool := fun k => k != "stuck-v0"

/-- A storage with two stale buckets and the current one. -/
def wStorage : CacheStorage := [("old-v0", []), ("stuck-v0", []), (CACHE_NAME, [])]

theorem activate_deletions_independent_witness :
    ("old-v0", ([] : Cache)) ∉ activateHandler wDeleteOk wStorage := by
  have h := activate_deletions_independent wDeleteOk wStorage ("old-v0", []) (by decide)
  exact h.2.2 (by decide) (by decide)

/-- Claim C8: if any core asset's fetch fails during install, the install
handler as a whole fails (returns no storage), with no local recovery. -/
theorem install_fails_on_asset_failure (net : String → Option Response)
    (cs : CacheStorage) (a : String) (ha : a ∈ CORE_ASSETS) (hn : net a = none) :
    installHandler net cs = none := by
  unfold installHandler
  rw [cacheAddAll_eq_none net CORE_ASSETS _ a ha hn]

/-- A network on which only the 512-pixel icon is unreachable. -/
def wNetMissingIcon : String → Option Response :=
  fun u => if u = "/icon-512.png" then none else some ⟨200, u⟩

theorem install_fails_on_asset_failure_witness :
    installHandler wNetMissingIcon [] = none :=
  install_fails_on_asset_failure wNetMissingIcon [] "/icon-512.png" (by decide) (by decide)

/-- Claim C9: round-trip through the cache.  Starting from a storage whose
buckets are all the current one, fetching the root while the network
fulfils returns that response and stores it; re-fetching the root while the
network rejects returns the previously stored response, not an error. -/
theorem root_roundtrip (net1 net2 : String → Option Response) (cs : CacheStorage)
    (res : Response) (hcs : ∀ p ∈ cs, p.1 = CACHE_NAME)
    (h1 : net1 "/" = some res) (h2 : net2 "/" = none) :
    (fetchHandler net1 cs ⟨"GET", "/"⟩).1 = FetchResult.responded (some res) ∧
    (fetchHandler net2 (fetchHandler net1 cs ⟨"GET", "/"⟩).2 ⟨"GET", "/"⟩).1
      = FetchResult.responded (some res) := by
  have hstep1 : fetchHandler net1 cs ⟨"GET", "/"⟩
      = (FetchResult.responded (some res),
         storageSet cs CACHE_NAME
           (cachePut (cachesOpen cs CACHE_NAME) "/" (cloneResponse res))) := by
    simp [fetchHandler, h1]
  refine ⟨by rw [hstep1], ?_⟩
  rw [hstep1]
  have hmatch : cachesMatch
      (storageSet cs CACHE_NAME (cachePut (cachesOpen cs CACHE_NAME) "/" (cloneResponse res)))
      "/" = some (cloneResponse res) :=
    cachesMatch_storageSet_of_some cs CACHE_NAME _ "/" _ hcs (cacheMatch_cachePut_self _ _ _)
  rw [cloneResponse_eq] at hmatch
  simp [fetchHandler, h2, cloneResponse_eq, hmatch]

theorem root_roundtrip_witness :
    (fetchHandler (fun _ => some ⟨200, "home"⟩) [] ⟨"GET", "/"⟩).1
      = FetchResult.responded (some ⟨200, "home"⟩) ∧
    (fetchHandler (fun _ => none)
        (fetchHandler (fun _ => some ⟨200, "home"⟩) [] ⟨"GET", "/"⟩).2 ⟨"GET", "/"⟩).1
      = FetchResult.responded (some ⟨200, "home"⟩) :=
  root_roundtrip (fun _ => some ⟨200, "home"⟩) (fun _ => none) [] ⟨200, "home"⟩
    (fun p hp => absurd hp (List.not_mem_nil p)) rfl rfl

/-- Claim C10: for a GET request the cache fallback chain is taken exactly
when the network fetch rejects.  Any fulfilled response — whatever its
status, 404 or 500 included — is returned to the caller and its clone stored
under the request's URL; a rejected fetch leaves the storage unchanged and
answers from the caches alone. -/
theorem fetch_branches_on_rejection_only (net : String → Option Response)
    (cs : CacheStorage) (req : Request) (res : Response) (hm : req.method = "GET") :
    (net req.url = some res →
        (fetchHandler net cs req).1 = FetchResult.responded (some res) ∧
        bucketMatch (fetchHandler net cs req).2 CACHE_NAME req.url
          = some (cloneResponse res)) ∧
    (net req.url = none →
        (fetchHandler net cs req).2 = cs ∧
        (fetchHandler net cs req).1 = FetchResult.responded
          (match cachesMatch cs req.url with
           | some cached => some cached
           | none => cachesMatch cs "/")) := by
  constructor
  · intro hn
    refine ⟨?_, ?_⟩
    · simp [fetchHandler, hm, hn]
    · simp [fetchHandler, hm, hn, bucketMatch, storageGet_storageSet_self,
        cacheMatch_cachePut_self]
  · intro hn
    refine ⟨?_, ?_⟩
    · simp [fetchHandler, hm, hn]
    · simp [fetchHandler, hm, hn]

theorem fetch_branches_on_rejection_only_witness :
    (fetchHandler (fun _ => some ⟨404, "missing"⟩) [] ⟨"GET", "/gone"⟩).1
      = FetchResult.responded (some ⟨404, "missing"⟩) ∧
    bucketMatch (fetchHandler (fun _ => some ⟨404, "missing"⟩) [] ⟨"GET", "/gone"⟩).2
      CACHE_NAME "/gone" = some (cloneResponse ⟨404, "missing"⟩) :=
  (fetch_branches_on_rejection_only (fun _ => some ⟨404, "missing"⟩) [] ⟨"GET", "/gone"⟩
    ⟨404, "missing"⟩ rfl).1 rfl
